import Mathlib

/-!
Shallow embedding of `board/board.go` from etticat/go-plumber-go.

The Go package implements a "flow" puzzle board: a grid of ints (0 = empty,
otherwise colorIndex+1), a list of flows (each an ordered list of points),
a line-oriented parser (`New`, `getSize`, `insertPoints`), a single mutation
primitive (`ColorCell`), a solved predicate (`Solved`) and adjacency
predicates (`AreAjacent`, `AreAllAjacent`).

Machine integers are modelled as `Int` (the inputs exercised here are far
from overflow).  Go runtime panics (out-of-range slice indexing, `make` with
a negative length) are modelled as explicit `panicked` constructors of the
result types, so that reachability of those branches can be stated.
-/

/-- A point is an ordered pair (row, column), Go `type Point [2]int`. -/
abbrev Point := Int × Int

/-- A flow is an ordered list of points, Go `type Color []Point`. -/
abbrev Color := List Point

/-- Go `type Board struct { grid [][]int; flows []Color; sync.RWMutex }`.
The mutex guards the operations and has no functional content. -/
structure Board where
  grid : List (List Int)
  flows : List Color
deriving DecidableEq

/-- Go `func (b *Board) Lines() int { return len(b.grid) }`. -/
def Board.linesOf (b : Board) : Nat := b.grid.length

/-- Go `func (b *Board) Cols() int { return len(b.grid[0]) }` (panics on an
empty grid; every caller below reaches it only with a non-empty grid). -/
def Board.colsOf (b : Board) : Nat := (b.grid.headD []).length

/-- Go `func (b *Board) Get(line, col int) int { return b.grid[line][col] }`,
for in-bounds indices (the only way the claims use it). -/
def Board.get (b : Board) (line col : Nat) : Int :=
  (b.grid.getD line []).getD col 0

/-- Go `strings.Split(s, sep)` for a single-character separator:
splitting the empty string yields one empty field. -/
def splitOnChar (sep : Char) : List Char → List (List Char)
  | [] => [[]]
  | ch :: rest =>
    match splitOnChar sep rest with
    | [] => [[]]
    | g :: gs => if ch = sep then [] :: g :: gs else (ch :: g) :: gs

/-- Go `strings.Trim(s, cutset)` for the one-character cutset used in the
source (`"\n"`): drop the character from both ends. -/
def trimChar (ch : Char) (s : List Char) : List Char :=
  ((s.dropWhile (fun c => c = ch)).reverse.dropWhile (fun c => c = ch)).reverse

/-- Decimal digit value, helper for `atoi`. -/
def digitVal (c : Char) : Option Nat :=
  if '0' ≤ c ∧ c ≤ '9' then some (c.toNat - '0'.toNat) else none

/-- Accumulate decimal digits; fails on the first non-digit. -/
def parseDigits : List Char → Nat → Option Nat
  | [], acc => some acc
  | c :: cs, acc =>
    match digitVal c with
    | none => none
    | some d => parseDigits cs (acc * 10 + d)

/-- Go `strconv.Atoi`: optional sign then at least one digit (the inputs in
scope are far below the int64 overflow boundary, which is not modelled). -/
def atoi (s : List Char) : Option Int :=
  match s with
  | [] => none
  | '+' :: rest =>
    if rest = [] then none else (parseDigits rest 0).map (fun n => (n : Int))
  | '-' :: rest =>
    if rest = [] then none else (parseDigits rest 0).map (fun n => -(n : Int))
  | _ => (parseDigits s 0).map (fun n => (n : Int))

/-- Go `bufio.Reader.ReadString('\n')` over a string reader: returns the
chunk up to and including the first newline and the remaining input; the
boolean is true when the read ended by end-of-stream (err == io.EOF). -/
def readString : List Char → List Char × List Char × Bool
  | [] => ([], [], true)
  | ch :: rest =>
    if ch = '\n' then ([ch], rest, false)
    else
      match readString rest with
      | (l, r, e) => (ch :: l, r, e)

/-- The sequence of chunks successive `ReadString('\n')` calls produce on
`input`: every chunk but the last ends in a newline and is paired with a nil
error; the final chunk (possibly empty) is paired with io.EOF. -/
def splitPieces : List Char → List (List Char)
  | [] => [[]]
  | ch :: rest =>
    if ch = '\n' then ['\n'] :: splitPieces rest
    else
      match splitPieces rest with
      | [] => [[ch]]
      | g :: gs => (ch :: g) :: gs

/-- Go `getSize`: split the trimmed header on commas, require exactly two
integer fields. -/
def getSize (s : List Char) : Option (Int × Int) :=
  match splitOnChar ',' (trimChar '\n' s) with
  | [a, b] =>
    match atoi a, atoi b with
    | some lines, some cols => some (lines, cols)
    | _, _ => none
  | _ => none

/-- The grid allocation in Go `New`:
`board.grid = make([][]int, lines)` followed by
`for i := 0; i < cols; i++ { board.grid[i] = make([]int, cols) }`.
Note the loop bound is `cols`, not `lines`; rows from `cols` up stay nil,
and `cols > lines` indexes past the grid.  `none` models the panic
(negative `make` length, or the out-of-range write). -/
def mkGrid (lines cols : Int) : Option (List (List Int)) :=
  if lines < 0 then none
  else if lines < cols then none
  else
    some (List.replicate cols.toNat (List.replicate cols.toNat (0 : Int)) ++
          List.replicate (lines.toNat - cols.toNat) ([] : List Int))

/-- An in-bounds write `g[i][j] = v`; `none` models the Go index-out-of-range
panic. -/
def gridWrite (g : List (List Int)) (i j : Nat) (v : Int) : Option (List (List Int)) :=
  if i < g.length then
    if j < (g.getD i []).length then some (g.set i ((g.getD i []).set j v))
    else none
  else none

/-- Outcome of handling one point token inside Go `insertPoints`. -/
inductive PointStep where
  | ok (b : Board) (p : Point)
  | fmtErr
  | panicked
deriving DecidableEq

/-- One iteration of the `for _, point := range points` loop in Go
`insertPoints`: split the token on a comma, Atoi both fields, then
`if err != nil || err2 != nil || i < 0 || i > len(board.grid) || j < 0 ||
j > len(board.grid[0])` (note `>` rather than `>=`, and the short-circuit
order: `len(board.grid[0])` is only evaluated — and only panics on an empty
grid — after the earlier disjuncts are false); on success the grid write
`board.grid[i][j] = index` happens immediately (it can panic when the check
let `i = len(grid)` or `j = len(grid[0])` through, or on a short row). -/
def insertOnePoint (b : Board) (point : List Char) (index : Int) : PointStep :=
  match splitOnChar ',' point with
  | [s1, s2] =>
    match atoi s1, atoi s2 with
    | some i, some j =>
      if i < 0 then .fmtErr
      else if (b.grid.length : Int) < i then .fmtErr
      else if j < 0 then .fmtErr
      else if b.grid = [] then .panicked
      else if (((b.grid.headD []).length : Int)) < j then .fmtErr
      else
        match gridWrite b.grid i.toNat j.toNat index with
        | none => .panicked
        | some g => .ok { b with grid := g } (i, j)
    | _, _ => .fmtErr
  | _ => .fmtErr

/-- Outcome of Go `insertPoints`: on a format error the board may already
carry the first point's grid write, so the error constructor carries the
board. -/
inductive InsertResult where
  | ok (b : Board)
  | fmtErr (b : Board)
  | panicked
deriving DecidableEq

/-- Go `insertPoints`: skip the empty string, trim the newline, split into
exactly two point tokens, process both (the grid writes interleave with the
validation, as in the source), then append the two-point flow. -/
def insertPoints (b : Board) (line : List Char) (index : Int) : InsertResult :=
  if line = [] then .ok b
  else
    match splitOnChar ' ' (trimChar '\n' line) with
    | [p1, p2] =>
      match insertOnePoint b p1 index with
      | .panicked => .panicked
      | .fmtErr => .fmtErr b
      | .ok b1 q1 =>
        match insertOnePoint b1 p2 index with
        | .panicked => .panicked
        | .fmtErr => .fmtErr b1
        | .ok b2 q2 => .ok { b2 with flows := b2.flows ++ [[q1, q2]] }
    | _ => .fmtErr b

/-- Outcome of Go `New`: `ok` is a nil-error return (this includes the
branch in which a flow-line error was merely printed), `headerErr` the two
early error returns for the header, `panicked` a runtime panic. -/
inductive NewResult where
  | ok (b : Board)
  | headerErr
  | panicked
deriving DecidableEq

/-- The reading loop of Go `New`.  Each piece before the last arrives with a
nil read error, the last with io.EOF; in both cases `insertPoints` runs, and
the loop breaks on io.EOF or on a non-nil `readErr` (which is printed) —
after which `New` returns the board with a nil error either way, so breaking
on the last piece and recursing into an empty piece list coincide. -/
def newLoop (b : Board) (pieces : List (List Char)) (index : Int) : NewResult :=
  match pieces with
  | [] => .ok b
  | line :: rest =>
    match insertPoints b line index with
    | .panicked => .panicked
    | .fmtErr b1 => .ok b1
    | .ok b1 => newLoop b1 rest (index + 1)

/-- Go `New`: read the header line (any read error, i.e. a missing trailing
newline, is an error return), parse the size, allocate the grid, then run
the flow loop.  The loop's first iteration uses the initial `line := ""`
with a nil read error — `insertPoints` skips it but `index` is still
incremented — modelled by the extra leading empty piece. -/
def New (input : List Char) : NewResult :=
  match readString input with
  | (sizeString, rest, eof) =>
    if eof then .headerErr
    else
      match getSize sizeString with
      | none => .headerErr
      | some (lines, cols) =>
        match mkGrid lines cols with
        | none => .panicked
        | some g => newLoop { grid := g, flows := [] } ([] :: splitPieces rest) 0

/-- Go `AreAjacent`: false when `dx*dx > 1 || dy*dy > 1 || dx*dx+dy*dy != 1`. -/
def AreAjacent (point nextPoint : Point) : Bool :=
  let dx := point.1 - nextPoint.1
  let dy := point.2 - nextPoint.2
  if dx * dx > 1 ∨ dy * dy > 1 ∨ dx * dx + dy * dy ≠ 1 then false else true

/-- Go `AreAllAjacent`: every consecutive pair adjacent, with the loop
breaking at the last element (vacuously true for lengths 0 and 1). -/
def AreAllAjacent : Color → Bool
  | [] => true
  | [_] => true
  | p :: q :: rest => AreAjacent p q && AreAllAjacent (q :: rest)

/-- The spliced sequence built in Go `ColorCell`:
`append(c[:len(c)-1], Point{line, col}, c[len(c)-1])` on a fresh copy `c`
of the flow — the new point in penultimate position, the original terminal
point last. -/
def splice (c : Color) (p : Point) : Color :=
  c.dropLast ++ [p, c.getLastD (0, 0)]

/-- The distinct error returns of Go `ColorCell`. -/
inductive CCErr where
  | colorRange
  | xRange
  | yRange
  | occupied
  | notAdjacent
deriving DecidableEq

/-- Outcome of Go `ColorCell`.  The error constructor carries the receiver
at the moment of the return (the source performs no write before any error
return).  `panicked` covers the index panic on a ragged row and the slice
panic `c[:len(c)-1]` on an empty flow. -/
inductive CCResult where
  | err (e : CCErr) (b : Board)
  | panicked
  | ok (b : Board)
deriving DecidableEq

/-- True exactly on a nil-error return of `ColorCell`. -/
def isOk : CCResult → Bool
  | .ok _ => true
  | _ => false

/-- Go `ColorCell`: the four guards in source order, then the spliced
sequence is built and `AreAllAjacent(updatedC[:len(c)])` is checked — the
prefix of the spliced sequence of the ORIGINAL length, i.e. everything up to
and including the new point but excluding the preserved terminal point.  On
success the grid cell is set to `colorIndex+1` and the flow replaced. -/
def Board.colorCell (b : Board) (colorIndex line col : Int) : CCResult :=
  if colorIndex < 0 ∨ ((b.flows.length : Int)) ≤ colorIndex then .err .colorRange b
  else if line < 0 ∨ ((b.linesOf : Int)) ≤ line then .err .xRange b
  else if col < 0 ∨ ((b.colsOf : Int)) ≤ col then .err .yRange b
  else if (b.grid.getD line.toNat []).length ≤ col.toNat then .panicked
  else if (b.grid.getD line.toNat []).getD col.toNat 0 ≠ 0 then .err .occupied b
  else
    match b.flows.getD colorIndex.toNat [] with
    | [] => .panicked
    | x :: xs =>
      if ! AreAllAjacent ((splice (x :: xs) (line, col)).take (x :: xs).length) then
        .err .notAdjacent b
      else
        .ok { grid := b.grid.set line.toNat
                        ((b.grid.getD line.toNat []).set col.toNat (colorIndex + 1)),
              flows := b.flows.set colorIndex.toNat (splice (x :: xs) (line, col)) }

/-- Go `Solved`: every cell of the `Lines() × Cols()` rectangle non-zero,
then every flow fully adjacent; early false returns agree with the
short-circuit conjunction. -/
def Board.solved (b : Board) : Bool :=
  (((List.range b.linesOf).all fun i =>
      (List.range b.colsOf).all fun j => ! ((b.grid.getD i []).getD j 0 == 0)))
  && b.flows.all AreAllAjacent

/-- Every flow on the board has at least two points. -/
def FlowsOK (b : Board) : Prop := ∀ f ∈ b.flows, 2 ≤ f.length

/-- Boards reachable from `b` by finitely many successful `ColorCell` calls
(the only mutation the Go API offers after construction). -/
inductive Reachable (b : Board) : Board → Prop
  | refl : Reachable b b
  | step (b1 b2 : Board) (k r c : Int) :
      Reachable b b1 → b1.colorCell k r c = .ok b2 → Reachable b b2

/-! ### Concrete boards used by the claim theorems -/

/-- The board `New` produces on the round-trip input
`"2,2\n0,0 1,1\n0,1 1,0\n"`. -/
def b6 : Board :=
  { grid := [[1, 2], [2, 1]], flows := [[(0, 0), (1, 1)], [(0, 1), (1, 0)]] }

/-- A 3x3 board whose single flow is `[(0,0),(2,2)]` (the two endpoints
marked with 1, everything else empty). -/
def exB1 : Board :=
  { grid := [[1, 0, 0], [0, 0, 0], [0, 0, 1]], flows := [[(0, 0), (2, 2)]] }

/-- A fully occupied 2x2 board whose single flow is the adjacent pair
`[(0,0),(0,1)]`. -/
def wb7 : Board :=
  { grid := [[1, 1], [1, 1]], flows := [[(0, 0), (0, 1)]] }

/-- An empty-flow-list 2x2 board (any color index is out of range on it). -/
def wb8 : Board :=
  { grid := [[0, 0], [0, 0]], flows := [] }

/-- A 2x2 board with one diagonal flow `[(0,0),(1,1)]`, endpoints marked. -/
def wb9 : Board :=
  { grid := [[1, 0], [0, 1]], flows := [[(0, 0), (1, 1)]] }

/-- The board `wb9` becomes after the successful call `ColorCell(0, 0, 1)`. -/
def wb9after : Board :=
  { grid := [[1, 1], [0, 1]], flows := [[(0, 0), (0, 1), (1, 1)]] }

/-! ### Helper lemmas -/

theorem getD_set_self {α : Type} (l : List α) (i : Nat) (a d : α) (h : i < l.length) :
    (l.set i a).getD i d = a := by
  induction l generalizing i with
  | nil => simp at h
  | cons x xs ih =>
    cases i with
    | zero => rfl
    | succ n =>
      simp only [List.set_cons_succ, List.getD_cons_succ]
      exact ih n (by simpa using h)

theorem getD_mem_of_lt {α : Type} (l : List α) (i : Nat) (d : α) (h : i < l.length) :
    l.getD i d ∈ l := by
  rw [List.getD_eq_getElem?_getD, List.getElem?_eq_getElem h]
  exact List.getElem_mem h

theorem getLastD_append_pair {α : Type} (l : List α) (a b d : α) :
    (l ++ [a, b]).getLastD d = b := by
  induction l generalizing d with
  | nil => rfl
  | cons x xs ih =>
    rw [List.cons_append, List.getLastD_cons]
    exact ih x

/-- Splicing preserves the terminal point. -/
theorem splice_getLastD (f : Color) (p : Point) :
    (splice f p).getLastD (0, 0) = f.getLastD (0, 0) := by
  unfold splice
  exact getLastD_append_pair f.dropLast p (f.getLastD (0, 0)) (0, 0)

/-- Splicing a point into a non-empty flow grows it by exactly one. -/
theorem splice_length (f : Color) (p : Point) (hf : f ≠ []) :
    (splice f p).length = f.length + 1 := by
  have : 0 < f.length := List.length_pos.mpr hf
  simp [splice, List.length_dropLast]
  omega

/-- The point handler of `insertPoints` never touches the flow list. -/
theorem insertOnePoint_flows (b : Board) (pt : List Char) (idx : Int) (b1 : Board)
    (p : Point) (h : insertOnePoint b pt idx = .ok b1 p) : b1.flows = b.flows := by
  unfold insertOnePoint at h
  repeat' split at h
  all_goals first
    | (injection h with h1 h2; rw [← h1])
    | cases h

/-- A successful `insertPoints` either leaves the flow list alone (blank
line) or appends exactly one two-point flow. -/
theorem insertPoints_ok_flows (b : Board) (line : List Char) (idx : Int) (b1 : Board)
    (h : insertPoints b line idx = .ok b1) :
    b1.flows = b.flows ∨ ∃ q1 q2, b1.flows = b.flows ++ [[q1, q2]] := by
  unfold insertPoints at h
  split at h
  · left; injection h with h1; rw [← h1]
  split at h
  · rename_i p1 p2 hsplit
    cases hm1 : insertOnePoint b p1 idx with
    | panicked => simp only [hm1] at h; cases h
    | fmtErr => simp only [hm1] at h; cases h
    | ok bx qx =>
      simp only [hm1] at h
      cases hm2 : insertOnePoint bx p2 idx with
      | panicked => simp only [hm2] at h; cases h
      | fmtErr => simp only [hm2] at h; cases h
      | ok by2 qy =>
        simp only [hm2, InsertResult.ok.injEq] at h
        right
        refine ⟨qx, qy, ?_⟩
        rw [← h]
        simp [insertOnePoint_flows _ _ _ _ _ hm2, insertOnePoint_flows _ _ _ _ _ hm1]
  · cases h

/-- An `insertPoints` call returning a format error leaves the flow list
alone (the grid may carry the first point's write, but no flow is appended). -/
theorem insertPoints_fmtErr_flows (b : Board) (line : List Char) (idx : Int) (b1 : Board)
    (h : insertPoints b line idx = .fmtErr b1) : b1.flows = b.flows := by
  unfold insertPoints at h
  split at h
  · cases h
  split at h
  · rename_i p1 p2 hsplit
    cases hm1 : insertOnePoint b p1 idx with
    | panicked => simp only [hm1] at h; cases h
    | fmtErr => simp only [hm1, InsertResult.fmtErr.injEq] at h; rw [← h]
    | ok bx qx =>
      simp only [hm1] at h
      cases hm2 : insertOnePoint bx p2 idx with
      | panicked => simp only [hm2] at h; cases h
      | fmtErr =>
        simp only [hm2, InsertResult.fmtErr.injEq] at h
        rw [← h]
        exact insertOnePoint_flows _ _ _ _ _ hm1
      | ok by2 qy => simp only [hm2] at h; cases h
  · injection h with h1; rw [← h1]

/-- The reading loop of `New` preserves the two-point lower bound on flows. -/
theorem newLoop_flowsOK (pieces : List (List Char)) (b : Board) (idx : Int) (b1 : Board)
    (hok : newLoop b pieces idx = .ok b1) (hb : FlowsOK b) : FlowsOK b1 := by
  induction pieces generalizing b idx with
  | nil =>
    unfold newLoop at hok
    injection hok with h1
    rw [← h1]; exact hb
  | cons line rest ih =>
    unfold newLoop at hok
    cases hm : insertPoints b line idx with
    | panicked => simp only [hm] at hok; cases hok
    | fmtErr bmid =>
      simp only [hm, NewResult.ok.injEq] at hok
      rw [← hok]
      intro f hf
      rw [insertPoints_fmtErr_flows _ _ _ _ hm] at hf
      exact hb f hf
    | ok bmid =>
      simp only [hm] at hok
      refine ih bmid (idx + 1) hok ?_
      intro f hf
      rcases insertPoints_ok_flows _ _ _ _ hm with heq | ⟨q1, q2, heq⟩
      · rw [heq] at hf; exact hb f hf
      · rw [heq] at hf
        rcases List.mem_append.mp hf with hf | hf
        · exact hb f hf
        · simp only [List.mem_singleton] at hf
          rw [hf]
          simp

/-- A board `New` returns with a nil error satisfies the flow invariant. -/
theorem New_flowsOK (input : List Char) (b : Board) (h : New input = .ok b) :
    FlowsOK b := by
  unfold New at h
  split at h
  rename_i sizeString rest eof heq
  split at h
  · cases h
  split at h
  · cases h
  rename_i sz
  split at h
  · cases h
  rename_i g hg
  refine newLoop_flowsOK _ _ _ _ h ?_
  intro f hf
  simp at hf

/-- A successful `ColorCell` preserves the flow invariant: the replaced flow
is one point longer than a non-empty flow, hence of length at least 2. -/
theorem colorCell_flowsOK (b : Board) (k r c : Int) (b2 : Board)
    (h : b.colorCell k r c = .ok b2) (hb : FlowsOK b) : FlowsOK b2 := by
  unfold Board.colorCell at h
  split at h
  · cases h
  split at h
  · cases h
  split at h
  · cases h
  split at h
  · cases h
  split at h
  · cases h
  split at h
  · cases h
  rename_i x xs heq
  split at h
  · cases h
  injection h with hb2
  intro f hf
  rw [← hb2] at hf
  simp only at hf
  rcases List.mem_or_eq_of_mem_set hf with hf | hf
  · exact hb f hf
  · rw [hf, splice_length _ _ (by simp)]
    simp

/-! ### Claim theorems -/

/-- Claim C1, counterexample to the claim as stated: on `exB1` the call
`ColorCell(0, 0, 1)` has its color index in range and targets an in-bounds
unoccupied cell, SUCCEEDS, and yet the full spliced sequence
`[(0,0),(0,1),(2,2)]` is NOT fully adjacent end-to-end (the pair formed by
the new point and the preserved terminal point is not 4-adjacent): the
stated "if and only if" is false on the code. -/
theorem c1_counterexample :
    (0 : Int) ≤ 0 ∧ (0 : Int) < (exB1.flows.length : Int) ∧
    (0 : Int) ≤ 0 ∧ (0 : Int) < (exB1.linesOf : Int) ∧
    (0 : Int) ≤ 1 ∧ (1 : Int) < (exB1.colsOf : Int) ∧
    exB1.get 0 1 = 0 ∧
    isOk (exB1.colorCell 0 0 1) = true ∧
    AreAllAjacent (splice (exB1.flows.getD 0 []) (0, 1)) = false := by
  decide

/-- Claim C1, amended: for color index `k` in range and an in-bounds
unoccupied cell `(r,c)` (on a board whose addressed row has the full `cols`
width and whose flow `k` is non-empty, so no Go panic intervenes),
`ColorCell(k, r, c)` succeeds if and only if the spliced sequence WITH ITS
FINAL ELEMENT REMOVED — `updatedC[:len(c)]`, everything up to and including
the new point but excluding the preserved terminal point — is fully
adjacent per `AreAllAjacent`; the pair (new point, terminal point) is not
checked.  When that prefix check fails the call returns the adjacency
error. -/
theorem c1_theorem (b : Board) (k r c : Int)
    (hk0 : 0 ≤ k) (hk1 : k < (b.flows.length : Int))
    (hr0 : 0 ≤ r) (hr1 : r < (b.linesOf : Int))
    (hc0 : 0 ≤ c) (hc1 : c < (b.colsOf : Int))
    (hrow : (b.grid.getD r.toNat []).length = b.colsOf)
    (hocc : (b.grid.getD r.toNat []).getD c.toNat 0 = 0)
    (hne : b.flows.getD k.toNat [] ≠ []) :
    isOk (b.colorCell k r c) =
      AreAllAjacent ((splice (b.flows.getD k.toNat []) (r, c)).take
        (b.flows.getD k.toNat []).length) ∧
    (AreAllAjacent ((splice (b.flows.getD k.toNat []) (r, c)).take
        (b.flows.getD k.toNat []).length) = false →
      b.colorCell k r c = .err .notAdjacent b) := by
  obtain ⟨x, xs, heq⟩ := List.exists_cons_of_ne_nil hne
  have h1 : ¬ (k < 0 ∨ ((b.flows.length : Int)) ≤ k) := by push_neg; omega
  have h2 : ¬ (r < 0 ∨ ((b.linesOf : Int)) ≤ r) := by push_neg; omega
  have h3 : ¬ (c < 0 ∨ ((b.colsOf : Int)) ≤ c) := by push_neg; omega
  have h4 : ¬ ((b.grid.getD r.toNat []).length ≤ c.toNat) := by omega
  have h5 : ¬ ((b.grid.getD r.toNat []).getD c.toNat 0 ≠ 0) := by
    simpa using hocc
  unfold Board.colorCell
  rw [if_neg h1, if_neg h2, if_neg h3, if_neg h4, if_neg h5, heq]
  simp only [List.length_cons]
  rcases Bool.eq_false_or_eq_true
      (AreAllAjacent ((splice (x :: xs) (r, c)).take (xs.length + 1))) with hA | hA
  · simp [isOk, hA]
  · simp [isOk, hA]

/-- Claim C1, witness: the amended theorem applied to `exB1` with the call
`ColorCell(0, 0, 1)`. -/
theorem c1_witness :
    isOk (exB1.colorCell 0 0 1) =
      AreAllAjacent ((splice (exB1.flows.getD 0 []) (0, 1)).take
        (exB1.flows.getD 0 []).length) :=
  (c1_theorem exB1 0 0 1 (by decide) (by decide) (by decide) (by decide)
    (by decide) (by decide) (by decide) (by decide) (by decide)).1

/-- Claim C2: for a header `"3,2\n"` (lines = 3 differing from cols = 2) the
constructed grid is NOT a rectangular 3x2 matrix: the allocation loop runs
`cols` times, so the third row is left nil. -/
theorem c2_theorem :
    New ("3,2\n".data) = .ok { grid := [[0, 0], [0, 0], []], flows := [] } ∧
    ¬ (∀ row ∈ (Board.mk [[0, 0], [0, 0], []] []).grid, row.length = 2) := by
  decide

/-- Claim C3: on input `"2,2\n2,0 0,0\n"` the coordinate `2 = lines` passes
the `i > len(board.grid)` check (which uses `>` rather than `>=`), and the
grid write `board.grid[2][0] = index` is an out-of-range access: the run
panics instead of returning a format error. -/
theorem c3_theorem : New ("2,2\n2,0 0,0\n".data) = .panicked := by
  decide

/-- Claim C4: on input `"2,2\nbadline\n"` (well-formed header, malformed
flow line) `New` returns with a NIL error — the format error from
`insertPoints` is only printed, and the final statement is
`return board, nil`. -/
theorem c4_theorem :
    New ("2,2\nbadline\n".data) = .ok { grid := [[0, 0], [0, 0]], flows := [] } := by
  decide

/-- Claim C5: on input `"2,2\n0,0 0,1\n\n1,0 1,1\n"` the blank line is read
as `"\n"`, which fails the `line == ""` skip, trims to the empty string, and
splits into ONE token — a format error that breaks the reading loop: the
flow line after the blank line is never registered (only one flow results). -/
theorem c5_theorem :
    New ("2,2\n0,0 0,1\n\n1,0 1,1\n".data) =
      .ok { grid := [[1, 1], [0, 0]], flows := [[(0, 0), (0, 1)]] } ∧
    (Board.mk [[1, 1], [0, 0]] [[(0, 0), (0, 1)]]).flows.length = 1 := by
  decide

/-- Claim C6: parsing `"2,2\n0,0 1,1\n0,1 1,0\n"` yields a board with
Lines() = 2, Cols() = 2, exactly two flows, Get(0,0) = Get(1,1) = 1,
Get(0,1) = Get(1,0) = 2, all four cells occupied, and Solved() = false
(each flow's two points are diagonal, hence not 4-adjacent). -/
theorem c6_theorem :
    New ("2,2\n0,0 1,1\n0,1 1,0\n".data) = .ok b6 ∧
    b6.linesOf = 2 ∧ b6.colsOf = 2 ∧ b6.flows.length = 2 ∧
    b6.get 0 0 = 1 ∧ b6.get 1 1 = 1 ∧ b6.get 0 1 = 2 ∧ b6.get 1 0 = 2 ∧
    (∀ i < 2, ∀ j < 2, b6.get i j ≠ 0) ∧
    b6.solved = false := by
  decide

/-- Claim C7: on a board with a rectangular grid (each row of width
`Cols()`, the only shape on which the Go loop reads every cell without
panicking), `Solved()` returns true if and only if every cell of the
`Lines() × Cols()` rectangle is non-zero and every flow satisfies
`AreAllAjacent`. -/
theorem c7_theorem (b : Board) (hrect : ∀ row ∈ b.grid, row.length = b.colsOf) :
    b.solved = true ↔
      ((∀ i, i < b.linesOf → ∀ j, j < b.colsOf → b.get i j ≠ 0) ∧
       (∀ f ∈ b.flows, AreAllAjacent f = true)) := by
  unfold Board.solved Board.get
  simp [List.all_eq_true, List.mem_range, Board.get]

/-- Claim C7, witness: the theorem applied to the fully occupied board
`wb7` whose single flow is adjacent, concluding `Solved() = true`. -/
theorem c7_witness : wb7.solved = true :=
  (c7_theorem wb7 (by decide)).mpr (by decide)

/-- Claim C8: whenever `ColorCell` returns an error — out-of-range color
index, row or column, occupied cell, or adjacency failure — the board it
holds at the moment of the return is exactly the board it was called on
(every error return in the source precedes both writes). -/
theorem c8_theorem (b : Board) (k r c : Int) (e : CCErr) (b2 : Board)
    (h : b.colorCell k r c = .err e b2) : b2 = b := by
  unfold Board.colorCell at h
  repeat' split at h
  all_goals first
    | (injection h with h1 h2; exact h2.symm)
    | cases h

/-- Claim C8, witness: the theorem applied to `wb8` with the out-of-range
color index 5. -/
theorem c8_witness : wb8 = wb8 :=
  c8_theorem wb8 5 0 0 .colorRange wb8 (by decide)

/-- Claim C9: after any successful `ColorCell(k, r, c)`, flow `k`'s last
point is unchanged and its length grew by exactly one. -/
theorem c9_theorem (b : Board) (k r c : Int) (b2 : Board)
    (h : b.colorCell k r c = .ok b2) :
    (b2.flows.getD k.toNat []).getLastD (0, 0) =
      (b.flows.getD k.toNat []).getLastD (0, 0) ∧
    (b2.flows.getD k.toNat []).length = (b.flows.getD k.toNat []).length + 1 := by
  unfold Board.colorCell at h
  split at h
  · cases h
  split at h
  · cases h
  split at h
  · cases h
  split at h
  · cases h
  split at h
  · cases h
  rename_i hg1 _ _ _ _
  split at h
  · cases h
  rename_i x xs heq
  split at h
  · cases h
  injection h with hb2
  have hk : k.toNat < b.flows.length := by
    push_neg at hg1
    omega
  have hflows : b2.flows = b.flows.set k.toNat (splice (x :: xs) (r, c)) := by
    rw [← hb2]
  rw [hflows, getD_set_self _ _ _ _ (by simpa using hk), heq]
  refine ⟨splice_getLastD _ _, splice_length _ _ (by simp)⟩

/-- Claim C9, witness: the theorem applied to the successful call
`ColorCell(0, 0, 1)` on `wb9`, which yields `wb9after`. -/
theorem c9_witness :
    (wb9after.flows.getD (0 : Int).toNat []).getLastD (0, 0) =
      (wb9.flows.getD (0 : Int).toNat []).getLastD (0, 0) ∧
    (wb9after.flows.getD (0 : Int).toNat []).length =
      (wb9.flows.getD (0 : Int).toNat []).length + 1 :=
  c9_theorem wb9 0 0 1 wb9after (by decide)

/-- Claim C10: every board built by `New` (with a nil error) and evolved by
any number of successful `ColorCell` calls has only flows of length at least
2 — registration appends exactly two points and `ColorCell` replaces a flow
by a strictly longer one — so the scrutinee of the empty-flow branch
guarding `c[:len(c)-1]` is non-empty for every in-range color index: that
branch is unreachable on such boards. -/
theorem c10_theorem (input : List Char) (b b2 : Board)
    (hnew : New input = .ok b) (hreach : Reachable b b2) :
    (∀ f ∈ b2.flows, 2 ≤ f.length) ∧
    (∀ k : Nat, k < b2.flows.length → b2.flows.getD k [] ≠ []) := by
  have hok : FlowsOK b2 := by
    induction hreach with
    | refl => exact New_flowsOK _ _ hnew
    | step b1 bx k r c h1 h2 ih => exact colorCell_flowsOK _ _ _ _ _ h2 ih
  refine ⟨hok, fun k hk hcontra => ?_⟩
  have hmem := getD_mem_of_lt b2.flows k [] hk
  have := hok _ hmem
  rw [hcontra] at this
  simp at this

/-- Claim C10, witness: the theorem applied to the board parsed from the
round-trip input, with the empty reachability path. -/
theorem c10_witness : b6.flows.getD 0 [] ≠ [] :=
  (c10_theorem ("2,2\n0,0 1,1\n0,1 1,0\n".data) b6 b6 (by decide)
    Reachable.refl).2 0 (by decide)
